import Mathlib

/-!
Verification of the `caddytlss3` storage plugin (src/plugin.go).

The plugin implements the caddytls `Storage` interface against Amazon S3:
  * key derivation (`domainKey`, `userKey`) under a configured prefix,
  * a storage facade (`SiteExists`, `LoadSite`, `StoreSite`, `DeleteSite`,
    `LoadUser`, `StoreUser`, `MostRecentUserEmail`) that serializes records
    with `encoding/json` and translates S3 not-found responses,
  * an in-process named-lock table (`TryLock`, `Unlock`) of `sync.WaitGroup`s.

The S3 client is injected behind the `s3iface.S3API` interface in the Go
code; here it is a record of state-passing operations over an abstract state
type, so the facade's behaviour can be proved for arbitrary adapter
responses and then instantiated with a read-after-write in-memory model.
-/

set_option maxRecDepth 4096

/-- Errors returned by the AWS SDK, as far as the plugin inspects them:
`awserr.RequestFailure` carries an HTTP status code (the plugin checks for
404), any other error is opaque. -/
inductive AwsErr where
  | requestFailure (status : Nat) (message : String)
  | generic (message : String)
deriving DecidableEq, Repr

deriving instance DecidableEq for Except

/-- Result of `GetObject`: a body stream. Reading or decoding the stream can
itself fail (modelled by the `Except`), as `ioutil.ReadAll` or
`json.Decoder.Decode` can in Go. -/
structure GetObjectOutput where
  body : Except String String
deriving DecidableEq, Repr

/-- The `s3iface.S3API` surface the plugin uses, as state-passing functions
over an abstract adapter state `σ`: head/get/put/delete by bucket and key. -/
structure S3API (σ : Type) where
  headObject : σ → String → String → Except AwsErr Unit × σ
  getObject : σ → String → String → Except AwsErr GetObjectOutput × σ
  putObject : σ → String → String → String → Option AwsErr × σ
  deleteObject : σ → String → String → Option AwsErr × σ

/-- The `S3Storage` struct. `prefixVal` is the Go field `prefix`; the
`nameLocks` map of `*sync.WaitGroup` becomes an association list from name to
a wait-group identifier, with the wait-group counters in `wgCounters` and a
fresh-identifier counter `nextWG` modelling allocation of new `WaitGroup`
objects. The `nameLocksMu` mutex serializes table accesses in Go; the
functional model is serialized by construction. -/
structure S3Storage where
  bucket : String
  prefixVal : String
  nameLocks : List (String × Nat)
  wgCounters : List (Nat × Int)
  nextWG : Nat
deriving DecidableEq, Repr

/-- `strings.ToLower`: lowercase every character. (Lean's `String.toLower`
is the same function, but it is defined by well-founded recursion over byte
positions and so does not evaluate inside the kernel; this character-list
form does.) -/
def lowerStr (s : String) : String := String.mk (s.data.map Char.toLower)

/-- `domainKey`: `s.prefix + "domain/" + strings.ToLower(domain)`. -/
def S3Storage.domainKey (s : S3Storage) (domain : String) : String :=
  s.prefixVal ++ "domain/" ++ lowerStr domain

/-- `userKey`: `s.prefix + "user/" + strings.ToLower(email)`. -/
def S3Storage.userKey (s : S3Storage) (email : String) : String :=
  s.prefixVal ++ "user/" ++ lowerStr email

/-- `TryLock`: under the mutex, if `name` is in `nameLocks` return the
existing wait group as the waiter (and a nil error); otherwise allocate a
fresh `WaitGroup`, `Add(1)` it, insert it, and return no waiter and a nil
error. The first component of the result mirrors Go's
`(caddytls.Waiter, error)` pair, with the waiter as the wait-group id. -/
def TryLock (s : S3Storage) (name : String) :
    (Option Nat × Option String) × S3Storage :=
  match s.nameLocks.lookup name with
  | some wg => ((some wg, none), s)
  | none =>
    ((none, none),
      { s with
        nameLocks := (name, s.nextWG) :: s.nameLocks
        wgCounters := (s.nextWG, 1) :: s.wgCounters
        nextWG := s.nextWG + 1 })

/-- `Unlock`: under the mutex, if `name` is not in `nameLocks` return the
error `"S3Storage: no lock to release for <name>"`; otherwise `Done()` the
wait group (decrement its counter, releasing waiters) and delete the entry. -/
def Unlock (s : S3Storage) (name : String) : Option String × S3Storage :=
  match s.nameLocks.lookup name with
  | none => (some ("S3Storage: no lock to release for " ++ name), s)
  | some wg =>
    (none,
      { s with
        nameLocks := s.nameLocks.filter (fun p => p.1 != name)
        wgCounters := s.wgCounters.map
          (fun p => if p.1 == wg then (p.1, p.2 - 1) else p) })

/-- The plugin's not-found test:
`err.(awserr.RequestFailure)` with `StatusCode() == http.StatusNotFound`. -/
def isNotFound : AwsErr → Bool
  | .requestFailure status _ => status == 404
  | .generic _ => false

/-- Errors the facade returns: `caddytls.ErrNotExist` wrapping the adapter
error, a raw adapter error propagated as-is, or a JSON decode/read error. -/
inductive StorageErr where
  | notExist (underlying : AwsErr)
  | aws (e : AwsErr)
  | decode (message : String)
deriving DecidableEq, Repr


/-- `caddytls.SiteData` (external dependency of the plugin): certificate,
private key and metadata byte slices for one domain. -/
structure SiteData where
  Cert : List UInt8
  Key : List UInt8
  Meta : List UInt8
deriving DecidableEq, Repr

/-- `caddytls.UserData` (external dependency of the plugin): ACME
registration and private key byte slices for one account. -/
structure UserData where
  Reg : List UInt8
  Key : List UInt8
deriving DecidableEq, Repr

/-- The standard base64 alphabet used by `encoding/json` for `[]byte`
fields. -/
def alphaChars : List Char :=
  "ABCDEFGHIJKLMNOPQRSTUVWXYZabcdefghijklmnopqrstuvwxyz0123456789+/".toList

/-- Character for a sextet value (defined for `n < 64`). -/
def b64Char (n : Nat) : Char := alphaChars.getD n 'A'

/-- Sextet value of an alphabet character, `none` for characters outside the
alphabet. -/
def b64CharVal (c : Char) : Option Nat :=
  let i := alphaChars.indexOf c
  if i < 64 then some i else none

/-- Standard base64 encoding of a byte sequence (Go
`base64.StdEncoding.Encode`): groups of three bytes become four alphabet
characters; a final group of one or two bytes is padded with `=`. -/
def b64EncodeList : List UInt8 → List Char
  | [] => []
  | [a] => [b64Char (a.toNat / 4), b64Char (a.toNat % 4 * 16), '=', '=']
  | [a, b] =>
    [b64Char (a.toNat / 4), b64Char (a.toNat % 4 * 16 + b.toNat / 16),
      b64Char (b.toNat % 16 * 4), '=']
  | a :: b :: c :: rest =>
    b64Char (a.toNat / 4) :: b64Char (a.toNat % 4 * 16 + b.toNat / 16) ::
      b64Char (b.toNat % 16 * 4 + c.toNat / 64) :: b64Char (c.toNat % 64) ::
      b64EncodeList rest

/-- Standard base64 decoding (Go `base64.StdEncoding.Decode`, default
non-strict mode: trailing bits of a padded group are ignored). Fails on
characters outside the alphabet or a length not a multiple of four. -/
def b64DecodeList : List Char → Option (List UInt8)
  | [] => some []
  | c1 :: c2 :: c3 :: c4 :: rest => do
    let s1 ← b64CharVal c1
    let s2 ← b64CharVal c2
    if c3 = '=' then
      if c4 = '=' then
        if rest = [] then pure [UInt8.ofNat (s1 * 4 + s2 / 16)] else none
      else none
    else do
      let s3 ← b64CharVal c3
      if c4 = '=' then
        if rest = [] then
          pure [UInt8.ofNat (s1 * 4 + s2 / 16),
            UInt8.ofNat (s2 % 16 * 16 + s3 / 4)]
        else none
      else do
        let s4 ← b64CharVal c4
        let tail ← b64DecodeList rest
        pure (UInt8.ofNat (s1 * 4 + s2 / 16) ::
          UInt8.ofNat (s2 % 16 * 16 + s3 / 4) ::
          UInt8.ofNat (s3 % 4 * 64 + s4) :: tail)
  | _ => none

/-- `json.Marshal` of a `*caddytls.SiteData`, as the character list of the
produced text: a nil pointer marshals to `null`, otherwise an object with
the struct's field tags and base64 byte fields. Marshalling these types
never fails in Go (byte-slice fields are unrestricted), so the Go
`json.Marshal` error branch is dead and the function is total here. -/
def marshalSiteDataChars : Option SiteData → List Char
  | none => "null".toList
  | some d =>
    "\x7b\"cert\":\"".toList ++ b64EncodeList d.Cert ++
      "\",\"key\":\"".toList ++ b64EncodeList d.Key ++
      "\",\"meta\":\"".toList ++ b64EncodeList d.Meta ++ "\"\x7d".toList

/-- `json.Marshal` of a `*caddytls.SiteData` as a string. -/
def marshalSiteData (d : Option SiteData) : String :=
  String.mk (marshalSiteDataChars d)

/-- `json.Marshal` of a `*caddytls.UserData`, as character list. -/
def marshalUserDataChars : Option UserData → List Char
  | none => "null".toList
  | some d =>
    "\x7b\"reg\":\"".toList ++ b64EncodeList d.Reg ++
      "\",\"key\":\"".toList ++ b64EncodeList d.Key ++ "\"\x7d".toList

/-- `json.Marshal` of a `*caddytls.UserData` as a string. -/
def marshalUserData (d : Option UserData) : String :=
  String.mk (marshalUserDataChars d)

/-- Strip an expected literal off the front of the input, or fail. -/
def stripPre : List Char → List Char → Option (List Char)
  | [], rest => some rest
  | _ :: _, [] => none
  | p :: ps, c :: cs => if p = c then stripPre ps cs else none

/-- Read a JSON string body up to its closing quote (the payloads produced
by the codec contain no escape sequences, so a backslash is rejected). -/
def readStr : List Char → Option (List Char × List Char)
  | [] => none
  | c :: rest =>
    if c = '"' then some ([], rest)
    else if c = '\\' then none
    else (readStr rest).map (fun p => (c :: p.1, p.2))

/-- `json.Decode` into a `*caddytls.SiteData`: `null` decodes to a nil
pointer, otherwise the payload must be an object with the struct's fields
whose base64 values decode. This models Go's decoder on the canonical texts
produced by `json.Marshal` (Go additionally accepts reordered fields and
insignificant whitespace, which the plugin never stores); an empty or
otherwise malformed payload fails, exactly as in Go. -/
def decodeSiteData (s : String) : Except String (Option SiteData) :=
  if s = "null" then Except.ok none
  else
    match stripPre "\x7b\"cert\":\"".toList s.toList with
    | none => Except.error "invalid site payload"
    | some r1 =>
      match readStr r1 with
      | none => Except.error "invalid site payload"
      | some (cert64, r2) =>
        match stripPre ",\"key\":\"".toList r2 with
        | none => Except.error "invalid site payload"
        | some r3 =>
          match readStr r3 with
          | none => Except.error "invalid site payload"
          | some (key64, r4) =>
            match stripPre ",\"meta\":\"".toList r4 with
            | none => Except.error "invalid site payload"
            | some r5 =>
              match readStr r5 with
              | none => Except.error "invalid site payload"
              | some (meta64, r6) =>
                if r6 = "\x7d".toList then
                  match b64DecodeList cert64, b64DecodeList key64,
                      b64DecodeList meta64 with
                  | some cert, some key, some meta =>
                    Except.ok (some ⟨cert, key, meta⟩)
                  | _, _, _ => Except.error "illegal base64 data"
                else Except.error "invalid site payload"

/-- `json.Decode` into a `*caddytls.UserData`; same modelling notes as
`decodeSiteData`. -/
def decodeUserData (s : String) : Except String (Option UserData) :=
  if s = "null" then Except.ok none
  else
    match stripPre "\x7b\"reg\":\"".toList s.toList with
    | none => Except.error "invalid user payload"
    | some r1 =>
      match readStr r1 with
      | none => Except.error "invalid user payload"
      | some (reg64, r2) =>
        match stripPre ",\"key\":\"".toList r2 with
        | none => Except.error "invalid user payload"
        | some r3 =>
          match readStr r3 with
          | none => Except.error "invalid user payload"
          | some (key64, r4) =>
            if r4 = "\x7d".toList then
              match b64DecodeList reg64, b64DecodeList key64 with
              | some reg, some key => Except.ok (some ⟨reg, key⟩)
              | _, _ => Except.error "illegal base64 data"
            else Except.error "invalid user payload"

/-- `SiteExists`: `HeadObject` on the domain key; a 404 request failure
yields `(false, nil)`, any other error is returned with `false`, success
yields `(true, nil)`. -/
def SiteExists {σ : Type} (api : S3API σ) (s : S3Storage) (st : σ)
    (domain : String) : (Bool × Option AwsErr) × σ :=
  match api.headObject st s.bucket (s.domainKey domain) with
  | (Except.error e, st1) =>
    if isNotFound e then ((false, none), st1) else ((false, some e), st1)
  | (Except.ok _, st1) => ((true, none), st1)

/-- `LoadSite`: `GetObject` on the domain key; a 404 request failure becomes
`caddytls.ErrNotExist`, any other adapter error is returned as-is, and the
body is JSON-decoded with decode (or body-read) failures returned. -/
def LoadSite {σ : Type} (api : S3API σ) (s : S3Storage) (st : σ)
    (domain : String) : Except StorageErr (Option SiteData) × σ :=
  match api.getObject st s.bucket (s.domainKey domain) with
  | (Except.error e, st1) =>
    if isNotFound e then (Except.error (StorageErr.notExist e), st1)
    else (Except.error (StorageErr.aws e), st1)
  | (Except.ok res, st1) =>
    match res.body with
    | Except.error msg => (Except.error (StorageErr.decode msg), st1)
    | Except.ok bodyStr =>
      match decodeSiteData bodyStr with
      | Except.error msg => (Except.error (StorageErr.decode msg), st1)
      | Except.ok data => (Except.ok data, st1)

/-- `StoreSite`: marshal the record and `PutObject` it at the domain key
(with AES256 server-side encryption, not modelled), returning any put
error. -/
def StoreSite {σ : Type} (api : S3API σ) (s : S3Storage) (st : σ)
    (domain : String) (data : Option SiteData) : Option AwsErr × σ :=
  api.putObject st s.bucket (s.domainKey domain) (marshalSiteData data)

/-- `DeleteSite`: `DeleteObject` at the domain key, error returned as-is. -/
def DeleteSite {σ : Type} (api : S3API σ) (s : S3Storage) (st : σ)
    (domain : String) : Option AwsErr × σ :=
  api.deleteObject st s.bucket (s.domainKey domain)

/-- `LoadUser`: same contract as `LoadSite`, on the user key. -/
def LoadUser {σ : Type} (api : S3API σ) (s : S3Storage) (st : σ)
    (email : String) : Except StorageErr (Option UserData) × σ :=
  match api.getObject st s.bucket (s.userKey email) with
  | (Except.error e, st1) =>
    if isNotFound e then (Except.error (StorageErr.notExist e), st1)
    else (Except.error (StorageErr.aws e), st1)
  | (Except.ok res, st1) =>
    match res.body with
    | Except.error msg => (Except.error (StorageErr.decode msg), st1)
    | Except.ok bodyStr =>
      match decodeUserData bodyStr with
      | Except.error msg => (Except.error (StorageErr.decode msg), st1)
      | Except.ok data => (Except.ok data, st1)

/-- `StoreUser`: marshal and `PutObject` the record at the user key; on
success, `PutObject` the plain-text email at `userKey("recent")`. The first
write's error aborts before the second write; the second write's error is
returned even though the first write succeeded. -/
def StoreUser {σ : Type} (api : S3API σ) (s : S3Storage) (st : σ)
    (email : String) (data : Option UserData) : Option AwsErr × σ :=
  match api.putObject st s.bucket (s.userKey email) (marshalUserData data) with
  | (some e, st1) => (some e, st1)
  | (none, st1) => api.putObject st1 s.bucket (s.userKey "recent") email

/-- `MostRecentUserEmail`: `GetObject` at `userKey("recent")` and read the
body; any failure (request error or body-read error) yields the empty
string. The Go signature returns only a string, so no error can escape. -/
def MostRecentUserEmail {σ : Type} (api : S3API σ) (s : S3Storage) (st : σ) :
    String × σ :=
  match api.getObject st s.bucket (s.userKey "recent") with
  | (Except.error _, st1) => ("", st1)
  | (Except.ok res, st1) =>
    match res.body with
    | Except.error _ => ("", st1)
    | Except.ok b => (b, st1)

/-- In-memory, read-after-write-consistent S3 model: the bucket contents as
an association list from key to body, `Put` prepending (overwriting) and
missing keys reported as a 404 request failure. -/
abbrev S3State := List (String × String)

/-- The in-memory instantiation of the adapter. -/
def memAPI : S3API S3State where
  headObject st _bucket key :=
    match st.lookup key with
    | some _ => (Except.ok (), st)
    | none => (Except.error (AwsErr.requestFailure 404 "NotFound"), st)
  getObject st _bucket key :=
    match st.lookup key with
    | some body => (Except.ok ⟨Except.ok body⟩, st)
    | none => (Except.error (AwsErr.requestFailure 404 "NoSuchKey"), st)
  putObject st _bucket key body := (none, (key, body) :: st)
  deleteObject st _bucket key := (none, st.filter (fun p => p.1 != key))

/-- Adapter whose every operation fails with a fixed error (used to
exercise the facade's error branches). -/
def constErrAPI (e : AwsErr) : S3API Unit where
  headObject st _bucket _key := (Except.error e, st)
  getObject st _bucket _key := (Except.error e, st)
  putObject st _bucket _key _body := (some e, st)
  deleteObject st _bucket _key := (some e, st)

/-- Adapter whose `GetObject` always succeeds with a fixed body stream. -/
def constBodyAPI (body : Except String String) : S3API Unit where
  headObject st _bucket _key := (Except.ok (), st)
  getObject st _bucket _key := (Except.ok ⟨body⟩, st)
  putObject st _bucket _key _body := (none, st)
  deleteObject st _bucket _key := (none, st)

/-- Adapter recording every `PutObject` in order (all writes succeed). -/
def logAPI : S3API (List (String × String)) where
  headObject st _bucket _key := (Except.error (AwsErr.generic "log"), st)
  getObject st _bucket _key := (Except.error (AwsErr.generic "log"), st)
  putObject st _bucket key body := (none, st ++ [(key, body)])
  deleteObject st _bucket _key := (none, st)

/-- Adapter recording `PutObject` calls but failing on one key. -/
def failKeyAPI (e : AwsErr) (bad : String) : S3API (List (String × String)) where
  headObject st _bucket _key := (Except.error (AwsErr.generic "log"), st)
  getObject st _bucket _key := (Except.error (AwsErr.generic "log"), st)
  putObject st _bucket key body :=
    if key == bad then (some e, st) else (none, st ++ [(key, body)])
  deleteObject st _bucket _key := (none, st)

/-- A concrete storage configuration for the witness instances. -/
def sampleStorage : S3Storage :=
  { bucket := "bucket"
    prefixVal := "acme/ca.example/"
    nameLocks := []
    wgCounters := []
    nextWG := 0 }

/-! ### Codec lemmas -/

theorem b64CharVal_b64Char : ∀ n : Nat, n < 64 → b64CharVal (b64Char n) = some n := by
  decide

theorem b64Char_ne_quote : ∀ n : Nat, n < 64 →
    b64Char n ≠ '"' ∧ b64Char n ≠ '\\' := by
  decide

theorem b64Char_ne_pad : ∀ n : Nat, n < 64 → b64Char n ≠ '=' := by
  decide

theorem uint8_ofNat_eq (a : UInt8) (n : Nat) (h : n = a.toNat) :
    UInt8.ofNat n = a := by
  apply UInt8.ext
  have h2 : (UInt8.ofNat n).toNat = n % 256 := rfl
  have h3 := UInt8.toNat_lt a
  rw [h2, h]
  omega

theorem b64_roundtrip : ∀ bs : List UInt8,
    b64DecodeList (b64EncodeList bs) = some bs
  | [] => rfl
  | [a] => by
    have ha := UInt8.toNat_lt a
    simp only [b64EncodeList, b64DecodeList]
    rw [b64CharVal_b64Char (a.toNat / 4) (by omega),
      b64CharVal_b64Char (a.toNat % 4 * 16) (by omega)]
    simp only [Option.bind_eq_bind, Option.some_bind, if_true, if_pos rfl,
      reduceIte, Option.pure_def]
    rw [uint8_ofNat_eq a _ (by omega)]
  | [a, b] => by
    have ha := UInt8.toNat_lt a
    have hb := UInt8.toNat_lt b
    simp only [b64EncodeList, b64DecodeList]
    rw [b64CharVal_b64Char (a.toNat / 4) (by omega),
      b64CharVal_b64Char (a.toNat % 4 * 16 + b.toNat / 16) (by omega)]
    simp only [Option.bind_eq_bind, Option.some_bind,
      if_neg (b64Char_ne_pad (b.toNat % 16 * 4) (by omega))]
    rw [b64CharVal_b64Char (b.toNat % 16 * 4) (by omega)]
    simp only [Option.some_bind, if_pos rfl, reduceIte, Option.pure_def]
    rw [uint8_ofNat_eq a _ (by omega), uint8_ofNat_eq b _ (by omega)]
  | a :: b :: c :: rest => by
    have ha := UInt8.toNat_lt a
    have hb := UInt8.toNat_lt b
    have hc := UInt8.toNat_lt c
    have ih := b64_roundtrip rest
    simp only [b64EncodeList, b64DecodeList]
    rw [b64CharVal_b64Char (a.toNat / 4) (by omega),
      b64CharVal_b64Char (a.toNat % 4 * 16 + b.toNat / 16) (by omega)]
    simp only [Option.bind_eq_bind, Option.some_bind,
      if_neg (b64Char_ne_pad (b.toNat % 16 * 4 + c.toNat / 64) (by omega))]
    rw [b64CharVal_b64Char (b.toNat % 16 * 4 + c.toNat / 64) (by omega)]
    simp only [Option.some_bind,
      if_neg (b64Char_ne_pad (c.toNat % 64) (by omega))]
    rw [b64CharVal_b64Char (c.toNat % 64) (by omega)]
    simp only [Option.some_bind]
    rw [ih]
    simp only [Option.some_bind, Option.pure_def]
    rw [uint8_ofNat_eq a _ (by omega), uint8_ofNat_eq b _ (by omega),
      uint8_ofNat_eq c _ (by omega)]

theorem b64EncodeList_mem_ne : ∀ (bs : List UInt8), ∀ x ∈ b64EncodeList bs,
    x ≠ '"' ∧ x ≠ '\\'
  | [] => by simp [b64EncodeList]
  | [a] => by
    have ha := UInt8.toNat_lt a
    intro x hx
    simp only [b64EncodeList, List.mem_cons, List.not_mem_nil, or_false] at hx
    rcases hx with rfl | rfl | rfl | rfl
    · exact b64Char_ne_quote (a.toNat / 4) (by omega)
    · exact b64Char_ne_quote (a.toNat % 4 * 16) (by omega)
    · exact ⟨by decide, by decide⟩
    · exact ⟨by decide, by decide⟩
  | [a, b] => by
    have ha := UInt8.toNat_lt a
    have hb := UInt8.toNat_lt b
    intro x hx
    simp only [b64EncodeList, List.mem_cons, List.not_mem_nil, or_false] at hx
    rcases hx with rfl | rfl | rfl | rfl
    · exact b64Char_ne_quote (a.toNat / 4) (by omega)
    · exact b64Char_ne_quote (a.toNat % 4 * 16 + b.toNat / 16) (by omega)
    · exact b64Char_ne_quote (b.toNat % 16 * 4) (by omega)
    · exact ⟨by decide, by decide⟩
  | a :: b :: c :: rest => by
    have ha := UInt8.toNat_lt a
    have hb := UInt8.toNat_lt b
    have hc := UInt8.toNat_lt c
    have ih := b64EncodeList_mem_ne rest
    intro x hx
    simp only [b64EncodeList, List.mem_cons] at hx
    rcases hx with rfl | rfl | rfl | rfl | hx
    · exact b64Char_ne_quote (a.toNat / 4) (by omega)
    · exact b64Char_ne_quote (a.toNat % 4 * 16 + b.toNat / 16) (by omega)
    · exact b64Char_ne_quote (b.toNat % 16 * 4 + c.toNat / 64) (by omega)
    · exact b64Char_ne_quote (c.toNat % 64) (by omega)
    · exact ih x hx

theorem stripPre_append : ∀ (p r : List Char), stripPre p (p ++ r) = some r
  | [], r => rfl
  | c :: cs, r => by
    simp only [List.cons_append, stripPre, if_pos rfl]
    exact stripPre_append cs r

theorem readStr_append : ∀ (l r : List Char),
    (∀ c ∈ l, c ≠ '"' ∧ c ≠ '\\') → readStr (l ++ '"' :: r) = some (l, r)
  | [], r, _ => by simp [readStr]
  | c :: cs, r, h => by
    have hc := h c (List.mem_cons_self c cs)
    simp only [List.cons_append, readStr, if_neg hc.1, if_neg hc.2,
      List.append_eq]
    rw [readStr_append cs r (fun x hx => h x (List.mem_cons_of_mem c hx))]
    rfl

theorem marshalSite_ne_null (d : SiteData) : marshalSiteData (some d) ≠ "null" := by
  intro h
  have h2 := congrArg String.data h
  simp only [marshalSiteData, marshalSiteDataChars] at h2
  rw [show "\x7b\"cert\":\"".toList = '\x7b' :: "\"cert\":\"".toList from rfl] at h2
  simp at h2

theorem marshalUser_ne_null (d : UserData) : marshalUserData (some d) ≠ "null" := by
  intro h
  have h2 := congrArg String.data h
  simp only [marshalUserData, marshalUserDataChars] at h2
  rw [show "\x7b\"reg\":\"".toList = '\x7b' :: "\"reg\":\"".toList from rfl] at h2
  simp at h2

theorem decode_marshalSite : ∀ v, decodeSiteData (marshalSiteData v) = Except.ok v := by
  intro v
  cases v with
  | none => rfl
  | some d =>
    have hshape : (marshalSiteData (some d)).toList =
        "\x7b\"cert\":\"".toList ++ (b64EncodeList d.Cert ++ ('"' ::
          (",\"key\":\"".toList ++ (b64EncodeList d.Key ++ ('"' ::
            (",\"meta\":\"".toList ++ (b64EncodeList d.Meta ++
              ('"' :: "\x7d".toList)))))))) := by
      simp [marshalSiteData, marshalSiteDataChars, List.append_assoc]
    have h1 : readStr (b64EncodeList d.Cert ++ '"' :: (",\"key\":\"".toList ++
        (b64EncodeList d.Key ++ '"' :: (",\"meta\":\"".toList ++
          (b64EncodeList d.Meta ++ '"' :: "\x7d".toList))))) =
        some (b64EncodeList d.Cert, ",\"key\":\"".toList ++
          (b64EncodeList d.Key ++ '"' :: (",\"meta\":\"".toList ++
            (b64EncodeList d.Meta ++ '"' :: "\x7d".toList)))) :=
      readStr_append _ _ (b64EncodeList_mem_ne d.Cert)
    have h2 : readStr (b64EncodeList d.Key ++ '"' :: (",\"meta\":\"".toList ++
        (b64EncodeList d.Meta ++ '"' :: "\x7d".toList))) =
        some (b64EncodeList d.Key, ",\"meta\":\"".toList ++
          (b64EncodeList d.Meta ++ '"' :: "\x7d".toList)) :=
      readStr_append _ _ (b64EncodeList_mem_ne d.Key)
    have h3 : readStr (b64EncodeList d.Meta ++ '"' :: "\x7d".toList) =
        some (b64EncodeList d.Meta, "\x7d".toList) :=
      readStr_append _ _ (b64EncodeList_mem_ne d.Meta)
    rw [decodeSiteData, if_neg (marshalSite_ne_null d), hshape]
    simp only [stripPre_append, h1, h2, h3, b64_roundtrip, if_pos rfl, if_true]

theorem decode_marshalUser : ∀ v, decodeUserData (marshalUserData v) = Except.ok v := by
  intro v
  cases v with
  | none => rfl
  | some d =>
    have hshape : (marshalUserData (some d)).toList =
        "\x7b\"reg\":\"".toList ++ (b64EncodeList d.Reg ++ ('"' ::
          (",\"key\":\"".toList ++ (b64EncodeList d.Key ++
            ('"' :: "\x7d".toList))))) := by
      simp [marshalUserData, marshalUserDataChars, List.append_assoc]
    have h1 : readStr (b64EncodeList d.Reg ++ '"' :: (",\"key\":\"".toList ++
        (b64EncodeList d.Key ++ '"' :: "\x7d".toList))) =
        some (b64EncodeList d.Reg, ",\"key\":\"".toList ++
          (b64EncodeList d.Key ++ '"' :: "\x7d".toList)) :=
      readStr_append _ _ (b64EncodeList_mem_ne d.Reg)
    have h2 : readStr (b64EncodeList d.Key ++ '"' :: "\x7d".toList) =
        some (b64EncodeList d.Key, "\x7d".toList) :=
      readStr_append _ _ (b64EncodeList_mem_ne d.Key)
    rw [decodeUserData, if_neg (marshalUser_ne_null d), hshape]
    simp only [stripPre_append, h1, h2, b64_roundtrip, if_pos rfl, if_true]

/-! ### Association-list lemmas (the in-memory bucket and the lock table) -/

theorem lookup_cons_self {β : Type} (k : String) (v : β) (t : List (String × β)) :
    List.lookup k ((k, v) :: t) = some v := by
  rw [List.lookup, beq_self_eq_true]

theorem lookup_cons_ne {β : Type} (k1 k2 : String) (v : β)
    (t : List (String × β)) (h : k1 ≠ k2) :
    List.lookup k1 ((k2, v) :: t) = List.lookup k1 t := by
  rw [List.lookup, beq_false_of_ne h]

theorem lookup_none_notmem {β : Type} (l : List (String × β)) (k : String)
    (h : l.lookup k = none) : ∀ p ∈ l, p.1 ≠ k := by
  induction l with
  | nil => simp
  | cons hd tl ih =>
    intro p hp
    rw [List.lookup] at h
    cases hbeq : k == hd.1 with
    | true =>
      rw [hbeq] at h
      cases h
    | false =>
      rw [hbeq] at h
      rw [List.mem_cons] at hp
      rcases hp with rfl | hp
      · intro hk
        rw [hk, beq_self_eq_true] at hbeq
        cases hbeq
      · exact ih h p hp


theorem lookup_filter_self {β : Type} (l : List (String × β)) (k : String) :
    (l.filter (fun p => p.1 != k)).lookup k = none := by
  induction l with
  | nil => rfl
  | cons hd tl ih =>
    rw [List.filter_cons]
    by_cases h : hd.1 = k
    · simp only [h, bne_self_eq_false, Bool.false_eq_true, if_false]
      exact ih
    · have hb : (hd.1 != k) = true := bne_iff_ne.mpr h
      rw [hb, if_pos rfl, List.lookup]
      have hk : (k == hd.1) = false := beq_false_of_ne (fun he => h he.symm)
      rw [hk]
      exact ih

theorem lookup_map_decrement (l : List (Nat × Int)) (wg : Nat) (c : Int)
    (h : l.lookup wg = some c) :
    (l.map (fun p => if p.1 == wg then (p.1, p.2 - 1) else p)).lookup wg =
      some (c - 1) := by
  induction l with
  | nil => cases h
  | cons hd tl ih =>
    rw [List.lookup] at h
    rw [List.map_cons]
    by_cases he : wg = hd.1
    · rw [show (wg == hd.1) = true from beq_iff_eq.mpr he] at h
      injection h with h2
      rw [show (hd.1 == wg) = true from beq_iff_eq.mpr he.symm, if_pos rfl]
      rw [List.lookup]
      rw [show (wg == hd.1) = true from beq_iff_eq.mpr he]
      rw [h2]
    · rw [show (wg == hd.1) = false from beq_false_of_ne he] at h
      rw [show (hd.1 == wg) = false from beq_false_of_ne (fun x => he x.symm)]
      simp only [Bool.false_eq_true, if_false]
      rw [List.lookup]
      rw [show (wg == hd.1) = false from beq_false_of_ne he]
      exact ih h

theorem string_append_left_cancel (a b c : String) (h : a ++ b = a ++ c) :
    b = c := by
  have h2 := congrArg String.data h
  rw [String.data_append, String.data_append] at h2
  have h3 := List.append_cancel_left h2
  cases b
  cases c
  rw [show ∀ x y : List Char, String.mk x = String.mk y ↔ x = y from
    fun x y => ⟨fun hh => congrArg String.data hh, fun hh => congrArg String.mk hh⟩]
  exact h3

theorem userKey_ne_of_toLower_ne (s : S3Storage) (e1 e2 : String)
    (h : lowerStr e1 ≠ lowerStr e2) : s.userKey e1 ≠ s.userKey e2 := by
  intro hk
  rw [S3Storage.userKey, S3Storage.userKey, String.append_assoc,
    String.append_assoc] at hk
  have h2 := string_append_left_cancel _ _ _ hk
  have h3 := string_append_left_cancel _ _ _ h2
  exact h h3

/-- C10: `TryLock` never fails: for every name and lock-table state its
error result is `nil` in both the acquired and the contended case, even
though the Go signature allows an error. -/
theorem tryLock_never_errs (s : S3Storage) (name : String) :
    (TryLock s name).1.2 = none := by
  cases hl : s.nameLocks.lookup name <;> simp [TryLock, hl]

/-- C3: the per-name lock state machine. `TryLock` on an Unclaimed name
(the lookup misses) returns no waiter and no error and claims the name;
`TryLock` on a Claimed name returns the existing waiter, does not acquire
the lock, and leaves the whole state unchanged; and key uniqueness of the
lock table (at most one outstanding claim per name) is preserved by both
`TryLock` and `Unlock`. -/
theorem tryLock_state_machine (s : S3Storage) (name : String) :
    (s.nameLocks.lookup name = none →
      (TryLock s name).1 = (none, none) ∧
      (TryLock s name).2.nameLocks = (name, s.nextWG) :: s.nameLocks ∧
      (TryLock s name).2.nameLocks.lookup name = some s.nextWG) ∧
    (∀ wg, s.nameLocks.lookup name = some wg →
      (TryLock s name).1 = (some wg, none) ∧ (TryLock s name).2 = s) ∧
    ((s.nameLocks.map Prod.fst).Nodup →
      ((TryLock s name).2.nameLocks.map Prod.fst).Nodup ∧
      ∀ n, ((Unlock s n).2.nameLocks.map Prod.fst).Nodup) := by
  refine ⟨?_, ?_, ?_⟩
  · intro hl
    refine ⟨by simp [TryLock, hl], by simp [TryLock, hl], ?_⟩
    simp only [TryLock, hl]
    exact lookup_cons_self name s.nextWG s.nameLocks
  · intro wg hl
    exact ⟨by simp [TryLock, hl], by simp [TryLock, hl]⟩
  · intro hnd
    constructor
    · cases hl : s.nameLocks.lookup name with
      | some wg => simpa [TryLock, hl] using hnd
      | none =>
        simp only [TryLock, hl, List.map_cons]
        refine List.nodup_cons.mpr ⟨?_, hnd⟩
        intro hmem
        rcases List.mem_map.mp hmem with ⟨p, hp, hp1⟩
        exact lookup_none_notmem s.nameLocks name hl p hp hp1
    · intro n
      cases hl : s.nameLocks.lookup n with
      | none => simpa [Unlock, hl] using hnd
      | some wg =>
        simp only [Unlock, hl]
        exact hnd.sublist (List.Sublist.map Prod.fst (List.filter_sublist _))

/-- C4: `Unlock` on a Claimed name returns no error, removes the entry
from the lock table, and `Done()`s the associated wait group (its counter
drops by one — from 1, as set by `TryLock`, to 0 — releasing anyone blocked
on the waiter); `Unlock` on a name not currently Claimed fails with the
"no such lock" error. -/
theorem unlock_contract (s : S3Storage) (name : String) :
    (∀ wg, s.nameLocks.lookup name = some wg →
      (Unlock s name).1 = none ∧
      (Unlock s name).2.nameLocks.lookup name = none ∧
      (∀ c, s.wgCounters.lookup wg = some c →
        (Unlock s name).2.wgCounters.lookup wg = some (c - 1))) ∧
    (s.nameLocks.lookup name = none →
      (Unlock s name).1 =
        some ("S3Storage: no lock to release for " ++ name)) := by
  constructor
  · intro wg hl
    refine ⟨by simp [Unlock, hl], ?_, ?_⟩
    · simp only [Unlock, hl]
      exact lookup_filter_self s.nameLocks name
    · intro c hc
      simp only [Unlock, hl]
      exact lookup_map_decrement s.wgCounters wg c hc
  · intro hl
    simp [Unlock, hl]

/-- C1: for every domain and site record, `StoreSite` in the
read-after-write-consistent memory model succeeds, and afterwards
`LoadSite` of the same domain returns a record deep-equal to the one
stored (round-tripping through the JSON encoding) and `SiteExists`
reports true with no error. -/
theorem storeSite_roundtrip (s : S3Storage) (st : S3State) (domain : String)
    (data : Option SiteData) :
    (StoreSite memAPI s st domain data).1 = none ∧
    (LoadSite memAPI s (StoreSite memAPI s st domain data).2 domain).1 =
      Except.ok data ∧
    (SiteExists memAPI s (StoreSite memAPI s st domain data).2 domain).1 =
      (true, none) := by
  refine ⟨rfl, ?_, ?_⟩
  · rw [show (StoreSite memAPI s st domain data).2 =
      (s.domainKey domain, marshalSiteData data) :: st from rfl]
    simp [LoadSite, memAPI, lookup_cons_self, decode_marshalSite]
  · rw [show (StoreSite memAPI s st domain data).2 =
      (s.domainKey domain, marshalSiteData data) :: st from rfl]
    simp [SiteExists, memAPI, lookup_cons_self]

/-- C9: key derivation is deterministic and case-insensitive: the site key
is `<configured-prefix>domain/<lowercased-domain>`, the user key is
`<configured-prefix>user/<lowercased-email>`, the pointer key is
`<configured-prefix>user/recent`, and a site stored under one casing of a
domain is returned by a load under any casing with the same lowercase
form. -/
theorem key_derivation (s : S3Storage) (domain email d1 d2 : String)
    (st : S3State) (data : Option SiteData) :
    s.domainKey domain = s.prefixVal ++ "domain/" ++ lowerStr domain ∧
    s.userKey email = s.prefixVal ++ "user/" ++ lowerStr email ∧
    s.userKey "recent" = s.prefixVal ++ "user/recent" ∧
    (lowerStr d1 = lowerStr d2 →
      (LoadSite memAPI s (StoreSite memAPI s st d1 data).2 d2).1 =
        Except.ok data) := by
  refine ⟨rfl, rfl, ?_, ?_⟩
  · rw [S3Storage.userKey]
    rw [show lowerStr "recent" = "recent" from by decide]
    rw [String.append_assoc]
    rfl
  · intro hlow
    have hkey : s.domainKey d2 = s.domainKey d1 := by
      rw [S3Storage.domainKey, S3Storage.domainKey, hlow]
    rw [show (StoreSite memAPI s st d1 data).2 =
      (s.domainKey d1, marshalSiteData data) :: st from rfl]
    rw [LoadSite, hkey]
    simp [memAPI, lookup_cons_self, decode_marshalSite]

/-- C2: uniform not-found translation. When the adapter reports a 404
request failure on a read, `LoadSite` and `LoadUser` fail with the
domain-level `ErrNotExist` error (never the raw adapter error) and
`SiteExists` returns false with no error; any adapter failure other than
not-found is propagated as-is. -/
theorem notFound_translation {σ : Type} (api : S3API σ) (s : S3Storage)
    (st : σ) (domain email : String) (e : AwsErr) :
    ((api.getObject st s.bucket (s.domainKey domain)).1 = Except.error e →
      (isNotFound e = true →
        (LoadSite api s st domain).1 = Except.error (StorageErr.notExist e)) ∧
      (isNotFound e = false →
        (LoadSite api s st domain).1 = Except.error (StorageErr.aws e))) ∧
    ((api.getObject st s.bucket (s.userKey email)).1 = Except.error e →
      (isNotFound e = true →
        (LoadUser api s st email).1 = Except.error (StorageErr.notExist e)) ∧
      (isNotFound e = false →
        (LoadUser api s st email).1 = Except.error (StorageErr.aws e))) ∧
    ((api.headObject st s.bucket (s.domainKey domain)).1 = Except.error e →
      (isNotFound e = true → (SiteExists api s st domain).1 = (false, none)) ∧
      (isNotFound e = false →
        (SiteExists api s st domain).1 = (false, some e))) := by
  refine ⟨?_, ?_, ?_⟩
  · intro hget
    rcases hg : api.getObject st s.bucket (s.domainKey domain) with ⟨r, st2⟩
    rw [hg] at hget
    simp only at hget
    subst hget
    constructor
    · intro hnf
      simp [LoadSite, hg, hnf]
    · intro hnf
      simp [LoadSite, hg, hnf]
  · intro hget
    rcases hg : api.getObject st s.bucket (s.userKey email) with ⟨r, st2⟩
    rw [hg] at hget
    simp only at hget
    subst hget
    constructor
    · intro hnf
      simp [LoadUser, hg, hnf]
    · intro hnf
      simp [LoadUser, hg, hnf]
  · intro hget
    rcases hg : api.headObject st s.bucket (s.domainKey domain) with ⟨r, st2⟩
    rw [hg] at hget
    simp only at hget
    subst hget
    constructor
    · intro hnf
      simp [SiteExists, hg, hnf]
    · intro hnf
      simp [SiteExists, hg, hnf]

/-- C7: decoding an empty payload fails for both record types, and
whenever decoding a stored payload fails, `LoadSite`/`LoadUser` return the
decode error to the caller — they never silently yield a zero-valued
record. -/
theorem decode_never_defaults :
    decodeSiteData "" = Except.error "invalid site payload" ∧
    decodeUserData "" = Except.error "invalid user payload" ∧
    (∀ {σ : Type} (api : S3API σ) (s : S3Storage) (st : σ) (domain : String)
      (res : GetObjectOutput) (b m : String),
      (api.getObject st s.bucket (s.domainKey domain)).1 = Except.ok res →
      res.body = Except.ok b →
      decodeSiteData b = Except.error m →
      (LoadSite api s st domain).1 = Except.error (StorageErr.decode m)) ∧
    (∀ {σ : Type} (api : S3API σ) (s : S3Storage) (st : σ) (email : String)
      (res : GetObjectOutput) (b m : String),
      (api.getObject st s.bucket (s.userKey email)).1 = Except.ok res →
      res.body = Except.ok b →
      decodeUserData b = Except.error m →
      (LoadUser api s st email).1 = Except.error (StorageErr.decode m)) := by
  refine ⟨rfl, rfl, ?_, ?_⟩
  · intro σ api s st domain res b m hget hbody hdec
    rcases hg : api.getObject st s.bucket (s.domainKey domain) with ⟨r, st2⟩
    rw [hg] at hget
    simp only at hget
    subst hget
    simp [LoadSite, hg, hbody, hdec]
  · intro σ api s st email res b m hget hbody hdec
    rcases hg : api.getObject st s.bucket (s.userKey email) with ⟨r, st2⟩
    rw [hg] at hget
    simp only at hget
    subst hget
    simp [LoadUser, hg, hbody, hdec]

/-- C8: `MostRecentUserEmail` returns the empty string on every failure
mode — pointer key absent or adapter read error (both surface as a
`GetObject` error), and body read error — and, by its result type, never
returns an error: "no recent user" and "error reading recent user" are
flattened into the same empty-string result. -/
theorem mostRecentUserEmail_swallows {σ : Type} (api : S3API σ)
    (s : S3Storage) (st : σ) :
    (∀ e, (api.getObject st s.bucket (s.userKey "recent")).1 = Except.error e →
      (MostRecentUserEmail api s st).1 = "") ∧
    (∀ res m, (api.getObject st s.bucket (s.userKey "recent")).1 = Except.ok res →
      res.body = Except.error m → (MostRecentUserEmail api s st).1 = "") := by
  constructor
  · intro e hget
    rcases hg : api.getObject st s.bucket (s.userKey "recent") with ⟨r, st2⟩
    rw [hg] at hget
    simp only at hget
    subst hget
    simp [MostRecentUserEmail, hg]
  · intro res m hget hbody
    rcases hg : api.getObject st s.bucket (s.userKey "recent") with ⟨r, st2⟩
    rw [hg] at hget
    simp only at hget
    subst hget
    simp [MostRecentUserEmail, hg, hbody]

/-- C6: `StoreUser` performs exactly two independent writes in order —
first the encoded record to the user key, then the plain-text email to the
recent-pointer key. If the record write fails its error is returned and
the pointer write is not attempted (the adapter state stays as the failed
first call left it); if the pointer write fails its error is surfaced even
though the record write already succeeded (the trace holds the record
write alone). -/
theorem storeUser_two_writes :
    (∀ {σ : Type} (api : S3API σ) (s : S3Storage) (st : σ) (email : String)
      (data : Option UserData) (e : AwsErr) (st1 : σ),
      api.putObject st s.bucket (s.userKey email) (marshalUserData data) =
        (some e, st1) →
      StoreUser api s st email data = (some e, st1)) ∧
    (∀ {σ : Type} (api : S3API σ) (s : S3Storage) (st : σ) (email : String)
      (data : Option UserData) (st1 : σ),
      api.putObject st s.bucket (s.userKey email) (marshalUserData data) =
        (none, st1) →
      StoreUser api s st email data =
        api.putObject st1 s.bucket (s.userKey "recent") email) ∧
    (∀ (s : S3Storage) (email : String) (data : Option UserData),
      StoreUser logAPI s [] email data =
        (none, [(s.userKey email, marshalUserData data),
          (s.userKey "recent", email)])) ∧
    (∀ (s : S3Storage) (email : String) (data : Option UserData) (e : AwsErr),
      lowerStr email ≠ "recent" →
      StoreUser (failKeyAPI e (s.userKey "recent")) s [] email data =
        (some e, [(s.userKey email, marshalUserData data)])) := by
  refine ⟨?_, ?_, ?_, ?_⟩
  · intro σ api s st email data e st1 hput
    rw [StoreUser, hput]
  · intro σ api s st email data st1 hput
    rw [StoreUser, hput]
  · intro s email data
    rfl
  · intro s email data e hne
    have hkey : s.userKey email ≠ s.userKey "recent" :=
      userKey_ne_of_toLower_ne s email "recent"
        (by rw [show lowerStr "recent" = "recent" from by decide]; exact hne)
    rw [StoreUser]
    simp [failKeyAPI, hkey]

/-- C5 counterexample: for the email `"recent"`, `StoreUser` succeeds but
`LoadUser` does not return the stored record: the second write of
`StoreUser` targets `userKey("recent")`, the same key the record was just
written to, so the load finds the plain-text email and fails to decode
it. -/
theorem storeUser_recent_counterexample :
    (StoreUser memAPI sampleStorage [] "recent" (some ⟨[], []⟩)).1 = none ∧
    (LoadUser memAPI sampleStorage
      (StoreUser memAPI sampleStorage [] "recent" (some ⟨[], []⟩)).2
        "recent").1 ≠ Except.ok (some ⟨[], []⟩) := by
  constructor
  · rfl
  · decide

/-- C5 (amended): for every email whose lowercase form is not `"recent"`,
after `StoreUser` succeeds in the memory model, `LoadUser` of the same
email returns a record deep-equal to the one stored and
`MostRecentUserEmail` returns exactly the email as given. (The original
claim, quantified over every email, fails at `"recent"`: see the
counterexample.) -/
theorem storeUser_roundtrip (s : S3Storage) (st : S3State) (email : String)
    (data : Option UserData) (h : lowerStr email ≠ "recent") :
    (StoreUser memAPI s st email data).1 = none ∧
    (LoadUser memAPI s (StoreUser memAPI s st email data).2 email).1 =
      Except.ok data ∧
    (MostRecentUserEmail memAPI s (StoreUser memAPI s st email data).2).1 =
      email := by
  have hkey : s.userKey email ≠ s.userKey "recent" :=
    userKey_ne_of_toLower_ne s email "recent"
      (by rw [show lowerStr "recent" = "recent" from by decide]; exact h)
  have hstate : (StoreUser memAPI s st email data).2 =
      (s.userKey "recent", email) ::
        (s.userKey email, marshalUserData data) :: st := rfl
  refine ⟨rfl, ?_, ?_⟩
  · rw [hstate, LoadUser]
    rw [show memAPI.getObject
        ((s.userKey "recent", email) ::
          (s.userKey email, marshalUserData data) :: st) s.bucket
        (s.userKey email) =
      (Except.ok ⟨Except.ok (marshalUserData data)⟩,
        (s.userKey "recent", email) ::
          (s.userKey email, marshalUserData data) :: st) from by
      simp only [memAPI]
      rw [lookup_cons_ne _ _ _ _ hkey, lookup_cons_self]]
    simp [decode_marshalUser]
  · rw [hstate, MostRecentUserEmail]
    rw [show memAPI.getObject
        ((s.userKey "recent", email) ::
          (s.userKey email, marshalUserData data) :: st) s.bucket
        (s.userKey "recent") =
      (Except.ok ⟨Except.ok email⟩,
        (s.userKey "recent", email) ::
          (s.userKey email, marshalUserData data) :: st) from by
      simp only [memAPI]
      rw [lookup_cons_self]]

/-- Witness C2 -/
theorem notFound_translation_witness :
    (LoadSite (constErrAPI (AwsErr.requestFailure 404 "NoSuchKey"))
      sampleStorage () "example.com").1 =
      Except.error (StorageErr.notExist (AwsErr.requestFailure 404 "NoSuchKey")) ∧
    (LoadSite (constErrAPI (AwsErr.generic "network")) sampleStorage ()
      "example.com").1 = Except.error (StorageErr.aws (AwsErr.generic "network")) ∧
    (LoadUser (constErrAPI (AwsErr.requestFailure 404 "NoSuchKey"))
      sampleStorage () "someone@example.com").1 =
      Except.error (StorageErr.notExist (AwsErr.requestFailure 404 "NoSuchKey")) ∧
    (SiteExists (constErrAPI (AwsErr.requestFailure 404 "NoSuchKey"))
      sampleStorage () "example.com").1 = (false, none) ∧
    (SiteExists (constErrAPI (AwsErr.generic "network")) sampleStorage ()
      "example.com").1 = (false, some (AwsErr.generic "network")) :=
  ⟨((notFound_translation (constErrAPI (AwsErr.requestFailure 404 "NoSuchKey"))
      sampleStorage () "example.com" "someone@example.com"
      (AwsErr.requestFailure 404 "NoSuchKey")).1 rfl).1 rfl,
    ((notFound_translation (constErrAPI (AwsErr.generic "network"))
      sampleStorage () "example.com" "someone@example.com"
      (AwsErr.generic "network")).1 rfl).2 rfl,
    ((notFound_translation (constErrAPI (AwsErr.requestFailure 404 "NoSuchKey"))
      sampleStorage () "example.com" "someone@example.com"
      (AwsErr.requestFailure 404 "NoSuchKey")).2.1 rfl).1 rfl,
    ((notFound_translation (constErrAPI (AwsErr.requestFailure 404 "NoSuchKey"))
      sampleStorage () "example.com" "someone@example.com"
      (AwsErr.requestFailure 404 "NoSuchKey")).2.2 rfl).1 rfl,
    ((notFound_translation (constErrAPI (AwsErr.generic "network"))
      sampleStorage () "example.com" "someone@example.com"
      (AwsErr.generic "network")).2.2 rfl).2 rfl⟩

/-- Witness C3 -/
theorem tryLock_state_machine_witness :
    ((TryLock sampleStorage "x").1 = (none, none) ∧
      (TryLock sampleStorage "x").2.nameLocks = [("x", 0)] ∧
      (TryLock sampleStorage "x").2.nameLocks.lookup "x" = some 0) ∧
    ((TryLock ⟨"bucket", "acme/ca.example/", [("x", 0)], [(0, 1)], 1⟩ "x").1 =
        (some 0, none) ∧
      (TryLock ⟨"bucket", "acme/ca.example/", [("x", 0)], [(0, 1)], 1⟩ "x").2 =
        ⟨"bucket", "acme/ca.example/", [("x", 0)], [(0, 1)], 1⟩) ∧
    (((TryLock sampleStorage "x").2.nameLocks.map Prod.fst).Nodup ∧
      ∀ n, ((Unlock sampleStorage n).2.nameLocks.map Prod.fst).Nodup) :=
  ⟨(tryLock_state_machine sampleStorage "x").1 rfl,
    (tryLock_state_machine
      ⟨"bucket", "acme/ca.example/", [("x", 0)], [(0, 1)], 1⟩ "x").2.1 0 rfl,
    (tryLock_state_machine sampleStorage "x").2.2 (by decide)⟩

/-- Witness C4 -/
theorem unlock_contract_witness :
    ((Unlock ⟨"bucket", "acme/ca.example/", [("x", 0)], [(0, 1)], 1⟩ "x").1 =
        none ∧
      (Unlock ⟨"bucket", "acme/ca.example/", [("x", 0)], [(0, 1)], 1⟩
        "x").2.nameLocks.lookup "x" = none ∧
      (Unlock ⟨"bucket", "acme/ca.example/", [("x", 0)], [(0, 1)], 1⟩
        "x").2.wgCounters.lookup 0 = some 0) ∧
    (Unlock sampleStorage "y").1 =
      some ("S3Storage: no lock to release for " ++ "y") := by
  have h1 := (unlock_contract
    ⟨"bucket", "acme/ca.example/", [("x", 0)], [(0, 1)], 1⟩ "x").1 0 rfl
  have h2 := (unlock_contract sampleStorage "y").2 rfl
  exact ⟨⟨h1.1, h1.2.1, h1.2.2 1 rfl⟩, h2⟩

/-- Witness C5 (amended) -/
theorem storeUser_roundtrip_witness :
    lowerStr "someone@example.com" ≠ "recent" ∧
    (StoreUser memAPI sampleStorage [] "someone@example.com"
      (some ⟨[7], [9]⟩)).1 = none ∧
    (LoadUser memAPI sampleStorage
      (StoreUser memAPI sampleStorage [] "someone@example.com"
        (some ⟨[7], [9]⟩)).2 "someone@example.com").1 =
      Except.ok (some ⟨[7], [9]⟩) ∧
    (MostRecentUserEmail memAPI sampleStorage
      (StoreUser memAPI sampleStorage [] "someone@example.com"
        (some ⟨[7], [9]⟩)).2).1 = "someone@example.com" :=
  ⟨by decide,
    (storeUser_roundtrip sampleStorage [] "someone@example.com"
      (some ⟨[7], [9]⟩) (by decide)).1,
    (storeUser_roundtrip sampleStorage [] "someone@example.com"
      (some ⟨[7], [9]⟩) (by decide)).2.1,
    (storeUser_roundtrip sampleStorage [] "someone@example.com"
      (some ⟨[7], [9]⟩) (by decide)).2.2⟩

/-- Witness C6 -/
theorem storeUser_two_writes_witness :
    StoreUser (constErrAPI (AwsErr.generic "network")) sampleStorage ()
      "someone@example.com" none = (some (AwsErr.generic "network"), ()) ∧
    StoreUser logAPI sampleStorage [] "someone@example.com" none =
      logAPI.putObject [(sampleStorage.userKey "someone@example.com",
        marshalUserData none)] sampleStorage.bucket
        (sampleStorage.userKey "recent") "someone@example.com" ∧
    StoreUser logAPI sampleStorage [] "someone@example.com" none =
      (none, [(sampleStorage.userKey "someone@example.com",
        marshalUserData none),
        (sampleStorage.userKey "recent", "someone@example.com")]) ∧
    StoreUser (failKeyAPI (AwsErr.generic "network")
        (sampleStorage.userKey "recent")) sampleStorage []
      "someone@example.com" none =
      (some (AwsErr.generic "network"),
        [(sampleStorage.userKey "someone@example.com",
          marshalUserData none)]) :=
  ⟨storeUser_two_writes.1 (constErrAPI (AwsErr.generic "network"))
      sampleStorage () "someone@example.com" none
      (AwsErr.generic "network") () rfl,
    storeUser_two_writes.2.1 logAPI sampleStorage [] "someone@example.com"
      none [(sampleStorage.userKey "someone@example.com",
        marshalUserData none)] rfl,
    storeUser_two_writes.2.2.1 sampleStorage "someone@example.com" none,
    storeUser_two_writes.2.2.2 sampleStorage "someone@example.com" none
      (AwsErr.generic "network") (by decide)⟩

/-- Witness C7 -/
theorem decode_never_defaults_witness :
    (LoadSite (constBodyAPI (Except.ok "")) sampleStorage ()
      "example.com").1 =
      Except.error (StorageErr.decode "invalid site payload") ∧
    (LoadUser (constBodyAPI (Except.ok "")) sampleStorage ()
      "someone@example.com").1 =
      Except.error (StorageErr.decode "invalid user payload") :=
  ⟨decode_never_defaults.2.2.1 (constBodyAPI (Except.ok ""))
      sampleStorage () "example.com" ⟨Except.ok ""⟩ ""
      "invalid site payload" rfl rfl rfl,
    decode_never_defaults.2.2.2 (constBodyAPI (Except.ok ""))
      sampleStorage () "someone@example.com" ⟨Except.ok ""⟩ ""
      "invalid user payload" rfl rfl rfl⟩

/-- Witness C8 -/
theorem mostRecentUserEmail_swallows_witness :
    (MostRecentUserEmail (constErrAPI (AwsErr.requestFailure 404 "NoSuchKey"))
      sampleStorage ()).1 = "" ∧
    (MostRecentUserEmail (constErrAPI (AwsErr.generic "network"))
      sampleStorage ()).1 = "" ∧
    (MostRecentUserEmail (constBodyAPI (Except.error "read failed"))
      sampleStorage ()).1 = "" :=
  ⟨(mostRecentUserEmail_swallows
      (constErrAPI (AwsErr.requestFailure 404 "NoSuchKey")) sampleStorage
      ()).1 (AwsErr.requestFailure 404 "NoSuchKey") rfl,
    (mostRecentUserEmail_swallows (constErrAPI (AwsErr.generic "network"))
      sampleStorage ()).1 (AwsErr.generic "network") rfl,
    (mostRecentUserEmail_swallows (constBodyAPI (Except.error "read failed"))
      sampleStorage ()).2 ⟨Except.error "read failed"⟩ "read failed" rfl rfl⟩

/-- Witness C9 -/
theorem key_derivation_witness :
    lowerStr "Example.com" = lowerStr "example.com" ∧
    (LoadSite memAPI sampleStorage
      (StoreSite memAPI sampleStorage [] "Example.com"
        (some ⟨[1], [2], [3]⟩)).2 "example.com").1 =
      Except.ok (some ⟨[1], [2], [3]⟩) :=
  ⟨by decide,
    (key_derivation sampleStorage "example.com" "someone@example.com"
      "Example.com" "example.com" [] (some ⟨[1], [2], [3]⟩)).2.2.2
      (by decide)⟩
